import Mathlib

/-!
Formal model of the `fair_renderer` program (`src/main.rs`), a tool that
converts a JSON export of career-fair employer data into a directory of
per-company Markdown notes with YAML front matter.

The model is a shallow embedding: JSON values become an inductive `Json`,
YAML values an inductive `Yaml`, byte slices become `List Nat` (byte
values), Rust `String`s become Lean `String`s, fallible code returns
`Except`/`Option` (a slice-index panic is modelled as `Option.none`),
and the file system is an explicit oracle telling which writes fail.
-/

set_option autoImplicit false

/-- A parsed JSON value (model of `serde_json::Value`).  Numbers are kept
abstract as integers: the program never reads a numeric payload. -/
inductive Json where
  | null : Json
  | bool : Bool → Json
  | num : Int → Json
  | str : String → Json
  | arr : List Json → Json
  | obj : List (String × Json) → Json

/-- First-match lookup in an object's key/value list; absent keys give
`Json.null`, mirroring `serde_json`'s `Index<&str>` for `Value`. -/
def jLookup : List (String × Json) → String → Json
  | [], _ => .null
  | (k, v) :: rest, key => if k = key then v else jLookup rest key

/-- `v[key]` on a `serde_json::Value`: field of an object, `null` when the
value is not an object or the key is absent. -/
def idx (v : Json) (key : String) : Json :=
  match v with
  | .obj kvs => jLookup kvs key
  | _ => .null

/-- One extracted employer record (`struct CompanyEntry` in `main.rs`). -/
structure CompanyEntry where
  name : String
  description : String
  location : String
  website : String
  logo_url : String
  work_authorization : String
  job_titles : String
  job_types : List String
  majors : List String
  school_years : List String
  attending_sessions : List String
  deriving DecidableEq, Repr

/-- The `v2s` closure of `real_main`: a JSON value to a string, or the
error `json missing field: <tag>`. -/
def v2s (v : Json) (err : String) : Except String String :=
  match v with
  | .str inner => .ok inner
  | _ => .error ("json missing field: " ++ err)

/-- The `match ... Value::Array` pattern used for each required array
field of an entry: the value must be an array, else the given error. -/
def getArr (v : Json) (msg : String) : Except String (List Json) :=
  match v with
  | .arr l => .ok l
  | _ => .error msg

/-- `arr.iter().map(|entry| v2s(&entry[sub], tag)).collect()`: read the
`sub` string field of every element, stopping at the first failure. -/
def mapElems (l : List Json) (sub : String) (tag : String) : Except String (List String) :=
  match l with
  | [] => .ok []
  | el :: rest => do
      let s ← v2s (idx el sub) tag
      let ss ← mapElems rest sub tag
      pure (s :: ss)

/-- Extraction of one `CompanyEntry` from one element of `results`
(the body of the `for json_entry in json_entries` loop in `real_main`).
The four array fields are checked to be arrays in source order before
any of their element-level results is unwrapped, matching the order in
which the Rust code raises errors. -/
def extractEntry (e : Json) : Except String CompanyEntry := do
  let name ← v2s (idx (idx e "employer") "name") "name"
  let description ← v2s (idx e "company_description") "description"
  let location ← v2s (idx e "location_name") "location"
  let website ← v2s (idx (idx e "employer") "website") "website"
  let logo_url ← v2s (idx (idx e "employer") "logo_url") "logo_url"
  let work_authorization ← v2s (idx e "work_authorization_requirements") "work_auth"
  let job_titles ← v2s (idx e "job_titles") "job_titles"
  let jt ← getArr (idx e "job_types") "json missing field: job_types"
  let mj ← getArr (idx e "majors") "json missing field: majors"
  let sy ← getArr (idx e "school_years") "json missing field: school_years"
  let ss ← getArr (idx e "attending_career_fair_sessions") "json missing field: sessions"
  let job_types ← mapElems jt "name" "job_type"
  let majors ← mapElems mj "name" "major"
  let school_years ← mapElems sy "name" "school_year"
  let attending_sessions ← mapElems ss "display_name" "session"
  pure { name, description, location, website, logo_url, work_authorization,
         job_titles, job_types, majors, school_years, attending_sessions }

/-- The `companies` accumulation loop: extract every entry in order,
stopping at the first failure (no partial sequence is returned). -/
def extractAll : List Json → Except String (List CompanyEntry)
  | [] => .ok []
  | e :: rest => do
      let c ← extractEntry e
      let cs ← extractAll rest
      pure (c :: cs)

/-- The Record Extractor (`real_main` lines 111-166): the parsed input
document must have an array under `results`; each element is extracted
into a `CompanyEntry`. -/
def extract (doc : Json) : Except String (List CompanyEntry) :=
  match idx doc "results" with
  | .arr entries => extractAll entries
  | _ => .error "input data is an invalid format"

/-- Is the value a JSON string? -/
def isStr : Json → Bool
  | .str _ => true
  | _ => false

/-- The value is an array each of whose elements has a string under
`sub`. -/
def arrStrOk (v : Json) (sub : String) : Bool :=
  match v with
  | .arr l => l.all (fun el => isStr (idx el sub))
  | _ => false

/-- Well-formedness of one `results` entry: every required scalar field
is a string and every required array field is an array of objects with
the expected string sub-field. -/
def entryOk (e : Json) : Bool :=
  isStr (idx (idx e "employer") "name") &&
  isStr (idx e "company_description") &&
  isStr (idx e "location_name") &&
  isStr (idx (idx e "employer") "website") &&
  isStr (idx (idx e "employer") "logo_url") &&
  isStr (idx e "work_authorization_requirements") &&
  isStr (idx e "job_titles") &&
  arrStrOk (idx e "job_types") "name" &&
  arrStrOk (idx e "majors") "name" &&
  arrStrOk (idx e "school_years") "name" &&
  arrStrOk (idx e "attending_career_fair_sessions") "display_name"

/-- Well-formedness of the whole input document: an array under
`results` all of whose entries are well-formed. -/
def docOk (doc : Json) : Bool :=
  match idx doc "results" with
  | .arr es => es.all entryOk
  | _ => false

/-- The error messages extraction can produce, each identifying the
offending logical field (or the missing `results` array). -/
def extractionMsgs : List String :=
  ["input data is an invalid format",
   "json missing field: name", "json missing field: description",
   "json missing field: location", "json missing field: website",
   "json missing field: logo_url", "json missing field: work_auth",
   "json missing field: job_titles", "json missing field: job_types",
   "json missing field: majors", "json missing field: school_years",
   "json missing field: sessions", "json missing field: job_type",
   "json missing field: major", "json missing field: school_year",
   "json missing field: session"]

section ExceptLemmas

variable {α β : Type}

theorem bind_ok_iff {x : Except String α} {f : α → Except String β} {b : β} :
    (x >>= f) = .ok b ↔ ∃ a, x = .ok a ∧ f a = .ok b := by
  cases x <;> simp [Bind.bind, Except.bind]

theorem bind_error_iff {x : Except String α} {f : α → Except String β} {m : String} :
    (x >>= f) = .error m ↔ x = .error m ∨ ∃ a, x = .ok a ∧ f a = .error m := by
  cases x <;> simp [Bind.bind, Except.bind]

theorem pure_eq_ok {a : α} : (pure a : Except String α) = .ok a := rfl

end ExceptLemmas

theorem v2s_ok_iff {v : Json} {t s : String} : v2s v t = .ok s ↔ v = .str s := by
  cases v <;> simp [v2s, eq_comm]

theorem v2s_error_iff {v : Json} {t m : String} :
    v2s v t = .error m ↔ isStr v = false ∧ m = "json missing field: " ++ t := by
  cases v <;> simp [v2s, isStr, eq_comm]

theorem isStr_iff {v : Json} : isStr v = true ↔ ∃ s, v = .str s := by
  cases v <;> simp [isStr]

theorem getArr_ok_iff {v : Json} {msg : String} {l : List Json} :
    getArr v msg = .ok l ↔ v = .arr l := by
  cases v <;> simp [getArr, eq_comm]

theorem getArr_error_iff {v : Json} {msg m : String} :
    getArr v msg = .error m ↔ (∀ l, v ≠ .arr l) ∧ m = msg := by
  cases v <;> simp [getArr, eq_comm]

theorem mapElems_ok_of_all {l : List Json} {sub tag : String}
    (h : l.all (fun el => isStr (idx el sub)) = true) :
    ∃ ss, mapElems l sub tag = .ok ss := by
  induction l with
  | nil => exact ⟨[], rfl⟩
  | cons el rest ih =>
      simp only [List.all_cons, Bool.and_eq_true] at h
      obtain ⟨s, hs⟩ := isStr_iff.mp h.1
      obtain ⟨ss, hss⟩ := ih h.2
      exact ⟨s :: ss, by simp [mapElems, hs, v2s, hss, Bind.bind, Except.bind, pure_eq_ok]⟩

theorem mapElems_ok_all {l : List Json} {sub tag : String} {ss : List String}
    (h : mapElems l sub tag = .ok ss) :
    l.all (fun el => isStr (idx el sub)) = true := by
  induction l generalizing ss with
  | nil => simp
  | cons el rest ih =>
      simp only [mapElems, bind_ok_iff, pure_eq_ok] at h
      obtain ⟨s, hs, ss', hss', _⟩ := h
      simp only [List.all_cons, Bool.and_eq_true]
      exact ⟨isStr_iff.mpr ⟨s, v2s_ok_iff.mp hs⟩, ih hss'⟩

theorem mapElems_error {l : List Json} {sub tag m : String}
    (h : mapElems l sub tag = .error m) : m = "json missing field: " ++ tag := by
  induction l with
  | nil => simp [mapElems] at h
  | cons el rest ih =>
      simp only [mapElems, bind_error_iff] at h
      rcases h with h | ⟨s, _, h⟩
      · exact (v2s_error_iff.mp h).2
      · rcases h with h | ⟨ss, _, h⟩
        · exact ih h
        · simp [pure_eq_ok] at h

theorem pure_ne_error {α : Type} {a : α} {m : String} :
    ((pure a : Except String α) = .error m) ↔ False := by
  simp [pure, Except.pure]

theorem arrStrOk_iff {v : Json} {sub : String} :
    arrStrOk v sub = true ↔ ∃ l, v = .arr l ∧ l.all (fun el => isStr (idx el sub)) = true := by
  cases v <;> simp [arrStrOk]

theorem isStr_str {s : String} : isStr (.str s) = true := rfl

theorem arrStrOk_arr {l : List Json} {sub : String} :
    arrStrOk (.arr l) sub = l.all (fun el => isStr (idx el sub)) := rfl

theorem extractEntry_ok_iff {e : Json} :
    (∃ c, extractEntry e = .ok c) ↔ entryOk e = true := by
  constructor
  · rintro ⟨c, hc⟩
    simp only [extractEntry, bind_ok_iff, pure_eq_ok, Except.ok.injEq] at hc
    obtain ⟨n, hn, d, hd, lo, hlo, w, hw, lg, hlg, wa, hwa, jtt, hjtt,
      jt, hjt, mj, hmj, sy, hsy, ssx, hss, l1, hl1, l2, hl2, l3, hl3, l4, hl4, _⟩ := hc
    simp only [entryOk, v2s_ok_iff.mp hn, v2s_ok_iff.mp hd, v2s_ok_iff.mp hlo,
      v2s_ok_iff.mp hw, v2s_ok_iff.mp hlg, v2s_ok_iff.mp hwa, v2s_ok_iff.mp hjtt,
      getArr_ok_iff.mp hjt, getArr_ok_iff.mp hmj, getArr_ok_iff.mp hsy, getArr_ok_iff.mp hss,
      isStr_str, arrStrOk_arr, mapElems_ok_all hl1, mapElems_ok_all hl2,
      mapElems_ok_all hl3, mapElems_ok_all hl4, Bool.and_self]
  · intro h
    simp only [entryOk, Bool.and_eq_true, and_assoc] at h
    obtain ⟨h1, h2, h3, h4, h5, h6, h7, h8, h9, h10, h11⟩ := h
    obtain ⟨s1, e1⟩ := isStr_iff.mp h1
    obtain ⟨s2, e2⟩ := isStr_iff.mp h2
    obtain ⟨s3, e3⟩ := isStr_iff.mp h3
    obtain ⟨s4, e4⟩ := isStr_iff.mp h4
    obtain ⟨s5, e5⟩ := isStr_iff.mp h5
    obtain ⟨s6, e6⟩ := isStr_iff.mp h6
    obtain ⟨s7, e7⟩ := isStr_iff.mp h7
    obtain ⟨a1, ea1, hall1⟩ := arrStrOk_iff.mp h8
    obtain ⟨a2, ea2, hall2⟩ := arrStrOk_iff.mp h9
    obtain ⟨a3, ea3, hall3⟩ := arrStrOk_iff.mp h10
    obtain ⟨a4, ea4, hall4⟩ := arrStrOk_iff.mp h11
    obtain ⟨ss1, hm1⟩ := @mapElems_ok_of_all a1 "name" "job_type" hall1
    obtain ⟨ss2, hm2⟩ := @mapElems_ok_of_all a2 "name" "major" hall2
    obtain ⟨ss3, hm3⟩ := @mapElems_ok_of_all a3 "name" "school_year" hall3
    obtain ⟨ss4, hm4⟩ := @mapElems_ok_of_all a4 "display_name" "session" hall4
    refine ⟨⟨s1, s2, s3, s4, s5, s6, s7, ss1, ss2, ss3, ss4⟩, ?_⟩
    simp [extractEntry, e1, e2, e3, e4, e5, e6, e7, ea1, ea2, ea3, ea4,
      v2s, getArr, hm1, hm2, hm3, hm4, Bind.bind, Except.bind, pure_eq_ok]

theorem extractEntry_error_mem {e : Json} {m : String}
    (h : extractEntry e = .error m) : m ∈ extractionMsgs := by
  simp only [extractEntry, bind_error_iff, pure_ne_error, and_false, exists_false,
    or_false] at h
  rcases h with h | ⟨_, _, h | ⟨_, _, h | ⟨_, _, h | ⟨_, _, h | ⟨_, _, h | ⟨_, _, h |
    ⟨_, _, h | ⟨_, _, h | ⟨_, _, h | ⟨_, _, h | ⟨_, _, h | ⟨_, _, h | ⟨_, _, h |
    ⟨_, _, h⟩⟩⟩⟩⟩⟩⟩⟩⟩⟩⟩⟩⟩⟩ <;>
  first
    | (rw [(v2s_error_iff.mp h).2]; decide)
    | (rw [(getArr_error_iff.mp h).2]; decide)
    | (rw [mapElems_error h]; decide)

theorem extractAll_ok_iff {es : List Json} :
    (∃ cs, extractAll es = .ok cs) ↔ es.all entryOk = true := by
  induction es with
  | nil => simp [extractAll]
  | cons e rest ih =>
      constructor
      · rintro ⟨cs, h⟩
        simp only [extractAll, bind_ok_iff, pure_eq_ok] at h
        obtain ⟨c, hc, cs', hcs', _⟩ := h
        simp only [List.all_cons, Bool.and_eq_true]
        exact ⟨extractEntry_ok_iff.mp ⟨c, hc⟩, ih.mp ⟨cs', hcs'⟩⟩
      · intro h
        simp only [List.all_cons, Bool.and_eq_true] at h
        obtain ⟨c, hc⟩ := extractEntry_ok_iff.mpr h.1
        obtain ⟨cs, hcs⟩ := ih.mpr h.2
        exact ⟨c :: cs, by simp [extractAll, hc, hcs, Bind.bind, Except.bind, pure_eq_ok]⟩

theorem extractAll_error_mem {es : List Json} {m : String}
    (h : extractAll es = .error m) : m ∈ extractionMsgs := by
  induction es with
  | nil => simp [extractAll] at h
  | cons e rest ih =>
      simp only [extractAll, bind_error_iff, pure_ne_error, and_false, exists_false,
        or_false] at h
      rcases h with h | ⟨_, _, h⟩
      · exact extractEntry_error_mem h
      · exact ih h

theorem extractAll_length {es : List Json} {cs : List CompanyEntry}
    (h : extractAll es = .ok cs) : cs.length = es.length := by
  induction es generalizing cs with
  | nil => simp [extractAll] at h; simp [← h]
  | cons e rest ih =>
      simp only [extractAll, bind_ok_iff, pure_eq_ok, Except.ok.injEq] at h
      obtain ⟨c, _, cs', hcs', hcons⟩ := h
      simp [← hcons, ih hcs']

theorem extractAll_nth {es : List Json} {cs : List CompanyEntry}
    (h : extractAll es = .ok cs) :
    ∀ n (h1 : n < es.length) (h2 : n < cs.length),
      extractEntry (es.get ⟨n, h1⟩) = .ok (cs.get ⟨n, h2⟩) := by
  induction es generalizing cs with
  | nil => intro n h1; simp at h1
  | cons e rest ih =>
      simp only [extractAll, bind_ok_iff, pure_eq_ok, Except.ok.injEq] at h
      obtain ⟨c, hc, cs', hcs', hcons⟩ := h
      subst hcons
      intro n h1 h2
      cases n with
      | zero => simpa using hc
      | succ k => exact ih hcs' k (Nat.lt_of_succ_lt_succ h1) (Nat.lt_of_succ_lt_succ h2)

theorem extract_ok_iff {doc : Json} :
    (∃ cs, extract doc = .ok cs) ↔ docOk doc = true := by
  cases hidx : idx doc "results" <;>
    simp [extract, docOk, hidx, extractAll_ok_iff]

theorem extract_error_mem {doc : Json} {m : String}
    (h : extract doc = .error m) : m ∈ extractionMsgs := by
  cases hidx : idx doc "results" <;> rw [extract, hidx] at h
  case arr => exact extractAll_error_mem h
  all_goals (rw [show m = "input data is an invalid format" from (Except.error.injEq _ _).mp h.symm]; decide)

/-- C5: extraction fails the whole run, producing no record sequence,
exactly when the parsed document lacks an array under `results`, or a
required scalar field of some entry is missing or not a string, or a
required array field is not an array, or an element of a required array
field lacks the expected string sub-field (all captured by `docOk`);
on failure the single error message names the offending logical field
(it is one of `extractionMsgs`); otherwise extraction succeeds. -/
theorem extract_success_characterization (doc : Json) :
    ((∃ cs, extract doc = .ok cs) ↔ docOk doc = true) ∧
    (∀ m, extract doc = .error m → m ∈ extractionMsgs) :=
  ⟨extract_ok_iff, fun _ h => extract_error_mem h⟩

/-- Witness for C5 at concrete inputs: `Json.null` is rejected with the
format error, and a minimal valid document is accepted. -/
theorem extract_success_characterization_witness :
    ("input data is an invalid format" ∈ extractionMsgs) ∧
    ((∃ cs, extract (Json.obj [("results", Json.arr [])]) = .ok cs) ↔
      docOk (Json.obj [("results", Json.arr [])]) = true) :=
  ⟨(extract_success_characterization Json.null).2 _ rfl,
   (extract_success_characterization (Json.obj [("results", Json.arr [])])).1⟩

/-- The user-field placeholder loop of `real_main` (lines 208-211): for
each pre-existing schema field name, append the name and `: \n`.  The
Rust loop appends left to right; by associativity of concatenation the
right-nested recursion denotes the same string. -/
def userFieldLines : List String → String
  | [] => ""
  | f :: fs => f ++ ": \n" ++ userFieldLines fs

/-- The Note Renderer (`real_main` lines 206-226): the literal text of
one company note, chunk for chunk as the Rust code pushes it.  Rust's
`join(", ")` is `String.intercalate ", "`. -/
def renderNote (c : CompanyEntry) (user_fields : List String) : String :=
  "---\nfileClass: company\n"
  ++ userFieldLines user_fields
  ++ ("location: " ++ c.location ++ "\n")
  ++ ("majors: " ++ String.intercalate ", " c.majors ++ "\n")
  ++ ("job_titles: " ++ c.job_titles ++ "\n")
  ++ ("job_types: " ++ String.intercalate ", " c.job_types ++ "\n")
  ++ ("school_years: " ++ String.intercalate ", " c.school_years ++ "\n")
  ++ ("international: " ++ c.work_authorization ++ "\n")
  ++ ("sessions: " ++ String.intercalate ", " c.attending_sessions ++ "\n")
  ++ ("website: " ++ c.website ++ "\n")
  ++ "---\n\n"
  ++ ("<img src=\"" ++ c.logo_url ++ "\" style=\"width: 80px;\">\n\n")
  ++ ("### Description\n\n" ++ c.description ++ "\n")

/-- Spec-side combinator: a list of lines rendered as text, each line
followed by a line break. -/
def linesText : List String → String
  | [] => ""
  | l :: ls => l ++ "\n" ++ linesText ls

/-- Modelled from the claim wording of C4: the lines of a rendered note
in order — `---`, `fileClass: company`, one blank-valued line per user
field, the eight fixed lines, `---`, a blank line, the `<img>` line, a
blank line, `### Description`, a blank line, and the description. -/
def noteLines (c : CompanyEntry) (user_fields : List String) : List String :=
  ["---", "fileClass: company"]
  ++ user_fields.map (fun f => f ++ ": ")
  ++ ["location: " ++ c.location,
      "majors: " ++ String.intercalate ", " c.majors,
      "job_titles: " ++ c.job_titles,
      "job_types: " ++ String.intercalate ", " c.job_types,
      "school_years: " ++ String.intercalate ", " c.school_years,
      "international: " ++ c.work_authorization,
      "sessions: " ++ String.intercalate ", " c.attending_sessions,
      "website: " ++ c.website,
      "---", "",
      "<img src=\"" ++ c.logo_url ++ "\" style=\"width: 80px;\">",
      "", "### Description", "", c.description]

/-- The note text as the claim describes it. -/
def renderSpec (c : CompanyEntry) (user_fields : List String) : String :=
  linesText (noteLines c user_fields)

theorem linesText_append (a b : List String) :
    linesText (a ++ b) = linesText a ++ linesText b := by
  induction a with
  | nil => simp [linesText]
  | cons l ls ih => simp [linesText, ih, String.append_assoc]

theorem userLines_eq (uf : List String) :
    linesText (uf.map (fun f => f ++ ": ")) = userFieldLines uf := by
  induction uf with
  | nil => rfl
  | cons f fs ih =>
      simp only [List.map_cons, linesText, userFieldLines, ih]
      rw [show (": \n" : String) = ": " ++ "\n" from by decide]
      simp only [String.append_assoc]

theorem split_header (x : String) :
    ("---\nfileClass: company\n" : String) ++ x = "---" ++ ("\n" ++ ("fileClass: company" ++ ("\n" ++ x))) := by
  rw [show ("---\nfileClass: company\n" : String)
        = "---" ++ ("\n" ++ ("fileClass: company" ++ "\n")) from by decide]
  simp only [String.append_assoc]

theorem split_endfm (x : String) :
    ("---\n\n" : String) ++ x = "---" ++ ("\n" ++ ("\n" ++ x)) := by
  rw [show ("---\n\n" : String) = "---" ++ ("\n" ++ "\n") from by decide]
  simp only [String.append_assoc]

theorem split_imgend (x : String) :
    ("\" style=\"width: 80px;\">\n\n" : String) ++ x
      = "\" style=\"width: 80px;\">" ++ ("\n" ++ ("\n" ++ x)) := by
  rw [show ("\" style=\"width: 80px;\">\n\n" : String)
        = "\" style=\"width: 80px;\">" ++ ("\n" ++ "\n") from by decide]
  simp only [String.append_assoc]

theorem split_desc (x : String) :
    ("### Description\n\n" : String) ++ x = "### Description" ++ ("\n" ++ ("\n" ++ x)) := by
  rw [show ("### Description\n\n" : String) = "### Description" ++ ("\n" ++ "\n") from by decide]
  simp only [String.append_assoc]

/-- C4: for every Company record and list of user field names, the
rendered note text is exactly the line-by-line structure the claim
describes — `---`, `fileClass: company`, one `<field>: ` blank line per
user field in schema order, the eight fixed lines with sequence fields
joined by `", "`, `---`, a blank line, the `<img>` line, a blank line,
`### Description`, a blank line, the description — with all values
interpolated verbatim; and joining an empty sequence yields the empty
string (the line is kept). -/
theorem renderNote_matches_spec (c : CompanyEntry) (uf : List String) :
    renderNote c uf = renderSpec c uf ∧ String.intercalate ", " ([] : List String) = "" := by
  refine ⟨?_, rfl⟩
  simp only [renderSpec, noteLines, List.append_eq, List.cons_append, List.nil_append,
    List.append_assoc, linesText_append, userLines_eq, linesText]
  simp only [renderNote, String.append_assoc, split_header, split_endfm, split_imgend,
    split_desc, String.empty_append, String.append_empty]

/-- The per-company write step (`real_main` lines 203-238).  The file
system is modelled by the oracle `writeFails`, which says whether the
write of a given file name (inside the fixed `companies` output
directory) fails.  On success the single file written for this company
is returned as (name, content); a failing primary write falls back to
`error<i>.md` with the warning and company-name lines appended; a
failing fallback write is the fatal error of line 236. -/
def writeCompany (writeFails : String → Bool) (i : Nat) (c : CompanyEntry)
    (user_fields : List String) : Except String (String × String) :=
  let file_text := renderNote c user_fields
  let file_path := c.name ++ ".md"
  if writeFails file_path then
    let alt_text := file_text
      ++ "==This file failed to write, likely because of an issue with the name. If everything else looks fine then you can set the name yourself==\n\n"
      ++ ("**Company name:** " ++ c.name ++ "\n")
    if writeFails ("error" ++ toString i ++ ".md") then
      .error "unable to write company file"
    else .ok ("error" ++ toString i ++ ".md", alt_text)
  else .ok (file_path, file_text)

/-- The `for (i, company) in companies.iter().enumerate()` loop: write
one note per company, threading the zero-based index. -/
def processFrom (writeFails : String → Bool) (uf : List String) :
    Nat → List CompanyEntry → Except String (List (String × String))
  | _, [] => .ok []
  | i, c :: cs => do
      let note ← writeCompany writeFails i c uf
      let notes ← processFrom writeFails uf (i + 1) cs
      pure (note :: notes)

/-- All company notes written by the loop, starting at index 0. -/
def processCompanies (writeFails : String → Bool) (cs : List CompanyEntry)
    (uf : List String) : Except String (List (String × String)) :=
  processFrom writeFails uf 0 cs

theorem processFrom_all_ok (f : String → Bool) (uf : List String)
    (hwrites : ∀ p, f p = false) :
    ∀ i cs, processFrom f uf i cs
      = .ok (cs.map (fun c => (c.name ++ ".md", renderNote c uf))) := by
  intro i cs
  induction cs generalizing i with
  | nil => rfl
  | cons c rest ih =>
      simp [processFrom, writeCompany, hwrites, ih, Bind.bind, Except.bind, pure_eq_ok]

/-- C9: for a company at zero-based position `i` whose primary write to
`<name>.md` in the `companies` directory fails, exactly one fallback
file `error<i>.md` is written in the same directory, whose content is
the primary rendered content followed by the warning line and a line
containing the literal company name; if the fallback write also fails
the run aborts with the fatal error. -/
theorem writeCompany_fallback (f : String → Bool) (i : Nat) (c : CompanyEntry)
    (uf : List String) (hfail : f (c.name ++ ".md") = true) :
    (f ("error" ++ toString i ++ ".md") = false →
      writeCompany f i c uf = .ok ("error" ++ toString i ++ ".md",
        renderNote c uf
        ++ "==This file failed to write, likely because of an issue with the name. If everything else looks fine then you can set the name yourself==\n\n"
        ++ ("**Company name:** " ++ c.name ++ "\n"))) ∧
    (f ("error" ++ toString i ++ ".md") = true →
      writeCompany f i c uf = .error "unable to write company file") := by
  constructor <;> intro h <;> simp [writeCompany, hfail, h]

/-- A company whose name contains a path separator, and an oracle that
fails exactly on that primary file name. -/
def company0 : CompanyEntry :=
  ⟨"bad/name", "d", "loc", "web", "logo", "wa", "jt", [], [], [], []⟩

def wf0 : String → Bool := fun p => p == "bad/name.md"

/-- Witness for C9: with the failing primary write for `bad/name.md`,
the single written file is `error0.md` and its content ends with the
literal company name line. -/
theorem writeCompany_fallback_witness :
    wf0 (company0.name ++ ".md") = true ∧
    writeCompany wf0 0 company0 [] = .ok ("error0.md",
      renderNote company0 []
      ++ "==This file failed to write, likely because of an issue with the name. If everything else looks fine then you can set the name yourself==\n\n"
      ++ ("**Company name:** " ++ company0.name ++ "\n")) :=
  ⟨by decide, (writeCompany_fallback wf0 0 company0 [] (by decide)).1 (by decide)⟩

/-- C6: for every valid input document, when every file write succeeds,
extraction is deterministic and order-preserving: the extracted company
list has one company per `results` entry, the Nth entry yields the Nth
company, and the written notes are exactly the rendered notes of the
companies in order (so their count also equals the entry count). -/
theorem extract_render_order_preserving (doc : Json) (entries : List Json)
    (f : String → Bool) (uf : List String)
    (hres : idx doc "results" = .arr entries)
    (hok : docOk doc = true)
    (hwrites : ∀ p, f p = false) :
    ∃ cs, extract doc = .ok cs ∧
      cs.length = entries.length ∧
      (∀ n (h1 : n < entries.length) (h2 : n < cs.length),
        extractEntry (entries.get ⟨n, h1⟩) = .ok (cs.get ⟨n, h2⟩)) ∧
      processCompanies f cs uf
        = .ok (cs.map (fun c => (c.name ++ ".md", renderNote c uf))) ∧
      (cs.map (fun c => (c.name ++ ".md", renderNote c uf))).length = entries.length := by
  obtain ⟨cs, hcs⟩ := extract_ok_iff.mpr hok
  have hall : extractAll entries = .ok cs := by rwa [extract, hres] at hcs
  refine ⟨cs, hcs, extractAll_length hall, extractAll_nth hall, processFrom_all_ok f uf hwrites 0 cs, ?_⟩
  simp [extractAll_length hall]

/-- The end-to-end example document of spec section 8. -/
def entry1 : Json :=
  Json.obj [("employer", Json.obj [("name", Json.str "Acme"), ("website", Json.str "acme.com"),
              ("logo_url", Json.str "x.png")]),
            ("company_description", Json.str "d"),
            ("location_name", Json.str "NYC"),
            ("work_authorization_requirements", Json.str "none"),
            ("job_titles", Json.str "SWE"),
            ("job_types", Json.arr [Json.obj [("name", Json.str "Intern")]]),
            ("majors", Json.arr [Json.obj [("name", Json.str "CS")]]),
            ("school_years", Json.arr [Json.obj [("name", Json.str "Junior")]]),
            ("attending_career_fair_sessions", Json.arr [Json.obj [("display_name", Json.str "Morning")]])]

def doc1 : Json := Json.obj [("results", Json.arr [entry1])]

/-- Witness for C6 at the spec's own end-to-end example document with
an all-successful file system. -/
theorem extract_render_order_preserving_witness :
    ∃ cs, extract doc1 = .ok cs ∧
      cs.length = ([entry1] : List Json).length ∧
      (∀ n (h1 : n < ([entry1] : List Json).length) (h2 : n < cs.length),
        extractEntry (([entry1] : List Json).get ⟨n, h1⟩) = .ok (cs.get ⟨n, h2⟩)) ∧
      processCompanies (fun _ => false) cs []
        = .ok (cs.map (fun c => (c.name ++ ".md", renderNote c []))) ∧
      (cs.map (fun c => (c.name ++ ".md", renderNote c []))).length = ([entry1] : List Json).length :=
  extract_render_order_preserving doc1 [entry1] (fun _ => false) [] rfl (by decide) (fun _ => rfl)

/-- `fn main()` (lines 93-98): run `real_main`; on `Ok` do nothing, on
`Err(e)` print the error's Display text as one line.  `main` returns
unit either way, so the Rust process exit status is 0 in both cases.
The result is the pair (printed lines, exit status). -/
def mainBehavior : Except String Unit → List String × Nat
  | .ok _ => ([], 0)
  | .error e => ([e], 0)

/-- C1 counterexample: a failing run — here the core failure produced
by extraction on a non-object input — prints its single human-readable
message but the process exits with status 0, not a non-zero status as
the claim asserts. -/
theorem main_exit_counterexample :
    extract Json.null = .error "input data is an invalid format" ∧
    mainBehavior (.error "input data is an invalid format")
      = (["input data is an invalid format"], 0) ∧
    (0 : Nat) ≠ 1 ∧ ¬ (mainBehavior (.error "input data is an invalid format")).2 ≠ 0 := by
  exact ⟨rfl, rfl, by decide, by decide⟩

/-- C1 (amended): a successful run prints nothing; any core failure
prints exactly the one human-readable error message; but the process
exit status is 0 in both cases — the exit status does not signal
failure. -/
theorem main_exit_behavior (r : Except String Unit) :
    (∀ e, r = .error e → mainBehavior r = ([e], 0)) ∧
    (r = .ok () → mainBehavior r = ([], 0)) := by
  constructor
  · rintro e rfl; rfl
  · rintro rfl; rfl

/-- Witness for C1 (amended) at a concrete failing run. -/
theorem main_exit_behavior_witness :
    mainBehavior (.error "input data is an invalid format")
      = (["input data is an invalid format"], 0) :=
  (main_exit_behavior (.error "input data is an invalid format")).1 _ rfl

/-- A YAML value (model of `yaml_rust2::Yaml`).  `hash` is the ordered
key/value list of a `LinkedHashMap`.  Variants the program never
constructs or inspects specially (reals, aliases, bad values) are
represented by the same catch-all behavior as `int`/`bool`/`null`:
every accessor below treats them uniformly as "not my variant". -/
inductive Yaml where
  | str : String → Yaml
  | int : Int → Yaml
  | bool : Bool → Yaml
  | null : Yaml
  | arr : List Yaml → Yaml
  | hash : List (Yaml × Yaml) → Yaml

/-- `Yaml::as_hash` / `as_mut_hash`: the pair list of a hash. -/
def Yaml.asHash : Yaml → Option (List (Yaml × Yaml))
  | .hash h => some h
  | _ => none

/-- `Yaml::as_vec` / `as_mut_vec`: the element list of an array. -/
def Yaml.asVec : Yaml → Option (List Yaml)
  | .arr l => some l
  | _ => none

/-- `Yaml::as_str`: the content of a string value. -/
def Yaml.asStr : Yaml → Option String
  | .str s => some s
  | _ => none

/-- Does this hash key equal `Yaml::String(key)`?  (The program only
ever looks hashes up by string keys.) -/
def isStrKey (key : String) : Yaml → Bool
  | .str s => s == key
  | _ => false

/-- `LinkedHashMap::get` with a `Yaml::String(key)` key: first match in
insertion order. -/
def hashGet : List (Yaml × Yaml) → String → Option Yaml
  | [], _ => none
  | (k, v) :: rest, key => if isStrKey key k then some v else hashGet rest key

/-- In-place value replacement behind `get_mut`: replace the value of
the first entry whose key is `Yaml::String(key)`, keeping order. -/
def hashSet : List (Yaml × Yaml) → String → Yaml → List (Yaml × Yaml)
  | [], _, _ => []
  | (k, v) :: rest, key, val =>
      if isStrKey key k then (k, val) :: rest else (k, v) :: hashSet rest key val

/-- The loop of lines 253-255: the string `name` of every pre-existing
element of `fields`, failing if any element is not a mapping with a
string `name`. -/
def getUserFieldNames : List Yaml → Option (List String)
  | [] => some []
  | f :: fs => do
      let h ← f.asHash
      let nv ← hashGet h "name"
      let s ← nv.asStr
      let rest ← getUserFieldNames fs
      pure (s :: rest)

/-- The fixed output column names of line 257, in source order. -/
def field_strings : List String :=
  ["location", "majors", "job_titles", "job_types", "school_years",
   "international", "sessions", "website"]

/-- The id string used for the i-th appended field: the byte array
`[b'a'+i, b'b', b'c', b'd', b'e', b'f']` as UTF-8 (the loop increments
only `id[0]`; i < 8 so the u8 addition cannot wrap). -/
def idString (i : Nat) : String :=
  ⟨[Char.ofNat (97 + i), 'b', 'c', 'd', 'e', 'f']⟩

/-- The descriptor hash built for column `st` at loop index `i`
(lines 264-269); `Hash::insert` on fresh distinct keys appends in
order. -/
def mkFieldHash (st : String) (i : Nat) : Yaml :=
  .hash [(.str "name", .str st), (.str "type", .str "Input"),
         (.str "options", .hash []), (.str "path", .str ""),
         (.str "id", .str (idString i))]

/-- The eight descriptors appended to `fields`, in order. -/
def newDescriptors : List Yaml :=
  field_strings.enum.map (fun p => mkFieldHash p.2 p.1)

/-- The eight id strings appended to `fieldsOrder` (the second loop,
lines 275-283, resets `id` to the same base and repeats the same
increment). -/
def orderIds : List Yaml :=
  (List.range field_strings.length).map (fun i => .str (idString i))

/-- The document-level merge of `read_fileclass_yaml` (lines 247-290):
from the parsed template schema document, collect the pre-existing
field names, then append the eight fixed descriptors to `fields` and
the eight id strings to `fieldsOrder`.  The byte-level front-matter
strip (`clean_yaml_md_file`), the UTF-8 decode, and the YAML
parse/emit around this are library-boundary steps outside this
document-level model. -/
def read_fileclass_yaml (doc : Yaml) : Option (List String × Yaml) := do
  let file_class ← doc.asHash
  let fieldsVal ← hashGet file_class "fields"
  let fields ← fieldsVal.asVec
  let field_names ← getUserFieldNames fields
  let fc1 := hashSet file_class "fields" (.arr (fields ++ newDescriptors))
  let orderVal ← hashGet fc1 "fieldsOrder"
  let order ← orderVal.asVec
  let fc2 := hashSet fc1 "fieldsOrder" (.arr (order ++ orderIds))
  pure (field_names, .hash fc2)

/-- The `fields` value of a schema document. -/
def docFields (doc : Yaml) : Option Yaml :=
  doc.asHash.bind (fun h => hashGet h "fields")

/-- The `fieldsOrder` value of a schema document. -/
def docFieldsOrder (doc : Yaml) : Option Yaml :=
  doc.asHash.bind (fun h => hashGet h "fieldsOrder")

/-- The `id` value of a field descriptor. -/
def descriptorId (d : Yaml) : Option Yaml :=
  d.asHash.bind (fun h => hashGet h "id")

theorem isStrKey_true_iff {key : String} {k : Yaml} :
    isStrKey key k = true ↔ k = .str key := by
  cases k <;> simp [isStrKey]

theorem hashGet_hashSet_self {h : List (Yaml × Yaml)} {key : String} {v0 v : Yaml}
    (hex : hashGet h key = some v0) :
    hashGet (hashSet h key v) key = some v := by
  induction h with
  | nil => simp [hashGet] at hex
  | cons kv rest ih =>
      obtain ⟨k, w⟩ := kv
      by_cases hk : isStrKey key k = true
      · simp [hashGet, hashSet, hk]
      · simp only [Bool.not_eq_true] at hk
        simp [hashGet, hashSet, hk] at hex ⊢
        exact ih hex

theorem hashGet_hashSet_ne {h : List (Yaml × Yaml)} {key key2 : String} {v : Yaml}
    (hne : key ≠ key2) :
    hashGet (hashSet h key v) key2 = hashGet h key2 := by
  induction h with
  | nil => rfl
  | cons kv rest ih =>
      obtain ⟨k, w⟩ := kv
      by_cases hk : isStrKey key k = true
      · have : k = .str key := isStrKey_true_iff.mp hk
        subst this
        have h2 : isStrKey key2 (Yaml.str key) = false := by
          simp [isStrKey]
          intro hkey; exact absurd hkey hne
        simp [hashGet, hashSet, hk, h2]
      · simp only [Bool.not_eq_true] at hk
        simp [hashGet, hashSet, hk, ih]

theorem read_fileclass_yaml_eq {h : List (Yaml × Yaml)} {fl ol : List Yaml}
    {names : List String}
    (hf : hashGet h "fields" = some (.arr fl))
    (ho : hashGet h "fieldsOrder" = some (.arr ol))
    (hn : getUserFieldNames fl = some names) :
    read_fileclass_yaml (.hash h)
      = some (names, .hash (hashSet (hashSet h "fields" (.arr (fl ++ newDescriptors)))
          "fieldsOrder" (.arr (ol ++ orderIds)))) := by
  have hne : ("fields" : String) ≠ "fieldsOrder" := by decide
  have h1 : hashGet (hashSet h "fields" (.arr (fl ++ newDescriptors))) "fieldsOrder"
      = some (.arr ol) := by rw [hashGet_hashSet_ne hne, ho]
  simp [read_fileclass_yaml, Yaml.asHash, hf, Yaml.asVec, hn, h1, Bind.bind, Option.bind]

theorem merged_doc_lookups {h : List (Yaml × Yaml)} {fl ol : List Yaml}
    (hf : hashGet h "fields" = some (.arr fl))
    (ho : hashGet h "fieldsOrder" = some (.arr ol)) :
    docFields (Yaml.hash (hashSet (hashSet h "fields" (Yaml.arr (fl ++ newDescriptors)))
        "fieldsOrder" (Yaml.arr (ol ++ orderIds))))
      = some (.arr (fl ++ newDescriptors)) ∧
    docFieldsOrder (Yaml.hash (hashSet (hashSet h "fields" (Yaml.arr (fl ++ newDescriptors)))
        "fieldsOrder" (Yaml.arr (ol ++ orderIds))))
      = some (.arr (ol ++ orderIds)) := by
  have hne : ("fieldsOrder" : String) ≠ "fields" := by decide
  have h1 : hashGet (hashSet h "fields" (Yaml.arr (fl ++ newDescriptors))) "fieldsOrder"
      = some (.arr ol) := by rw [hashGet_hashSet_ne (by decide), ho]
  constructor
  · simp only [docFields, Yaml.asHash, Option.bind]
    rw [hashGet_hashSet_ne hne]
    exact hashGet_hashSet_self hf
  · simp only [docFieldsOrder, Yaml.asHash, Option.bind]
    exact hashGet_hashSet_self h1

/-- C3 (amended): for every template schema document that parses as a
mapping with `fields` and `fieldsOrder` sequences AND whose
pre-existing `fields` elements are each mappings with a string `name`
(without this extra condition the merge fails and appends nothing),
the merge appends exactly eight descriptors to `fields` in the order
location, majors, job_titles, job_types, school_years, international,
sessions, website, each `{name, type: "Input", options: {}, path: "",
id}` with the six-character ids `abcdef`, `bbcdef`, ... (only the
first character incremented), and appends the same eight id strings to
`fieldsOrder` in the same order. -/
theorem read_fileclass_yaml_appends (h : List (Yaml × Yaml)) (fl ol : List Yaml)
    (names : List String)
    (hf : hashGet h "fields" = some (.arr fl))
    (ho : hashGet h "fieldsOrder" = some (.arr ol))
    (hn : getUserFieldNames fl = some names) :
    ∃ doc2, read_fileclass_yaml (.hash h) = some (names, doc2) ∧
      docFields doc2 = some (.arr (fl ++
        [Yaml.hash [(Yaml.str "name", Yaml.str "location"), (Yaml.str "type", Yaml.str "Input"),
            (Yaml.str "options", Yaml.hash []), (Yaml.str "path", Yaml.str ""),
            (Yaml.str "id", Yaml.str "abcdef")],
         Yaml.hash [(Yaml.str "name", Yaml.str "majors"), (Yaml.str "type", Yaml.str "Input"),
            (Yaml.str "options", Yaml.hash []), (Yaml.str "path", Yaml.str ""),
            (Yaml.str "id", Yaml.str "bbcdef")],
         Yaml.hash [(Yaml.str "name", Yaml.str "job_titles"), (Yaml.str "type", Yaml.str "Input"),
            (Yaml.str "options", Yaml.hash []), (Yaml.str "path", Yaml.str ""),
            (Yaml.str "id", Yaml.str "cbcdef")],
         Yaml.hash [(Yaml.str "name", Yaml.str "job_types"), (Yaml.str "type", Yaml.str "Input"),
            (Yaml.str "options", Yaml.hash []), (Yaml.str "path", Yaml.str ""),
            (Yaml.str "id", Yaml.str "dbcdef")],
         Yaml.hash [(Yaml.str "name", Yaml.str "school_years"), (Yaml.str "type", Yaml.str "Input"),
            (Yaml.str "options", Yaml.hash []), (Yaml.str "path", Yaml.str ""),
            (Yaml.str "id", Yaml.str "ebcdef")],
         Yaml.hash [(Yaml.str "name", Yaml.str "international"), (Yaml.str "type", Yaml.str "Input"),
            (Yaml.str "options", Yaml.hash []), (Yaml.str "path", Yaml.str ""),
            (Yaml.str "id", Yaml.str "fbcdef")],
         Yaml.hash [(Yaml.str "name", Yaml.str "sessions"), (Yaml.str "type", Yaml.str "Input"),
            (Yaml.str "options", Yaml.hash []), (Yaml.str "path", Yaml.str ""),
            (Yaml.str "id", Yaml.str "gbcdef")],
         Yaml.hash [(Yaml.str "name", Yaml.str "website"), (Yaml.str "type", Yaml.str "Input"),
            (Yaml.str "options", Yaml.hash []), (Yaml.str "path", Yaml.str ""),
            (Yaml.str "id", Yaml.str "hbcdef")]])) ∧
      docFieldsOrder doc2 = some (.arr (ol ++
        [Yaml.str "abcdef", Yaml.str "bbcdef", Yaml.str "cbcdef", Yaml.str "dbcdef",
         Yaml.str "ebcdef", Yaml.str "fbcdef", Yaml.str "gbcdef", Yaml.str "hbcdef"])) := by
  refine ⟨_, read_fileclass_yaml_eq hf ho hn, ?_, ?_⟩
  · have := (merged_doc_lookups hf ho).1
    rwa [show newDescriptors =
      [Yaml.hash [(Yaml.str "name", Yaml.str "location"), (Yaml.str "type", Yaml.str "Input"),
          (Yaml.str "options", Yaml.hash []), (Yaml.str "path", Yaml.str ""),
          (Yaml.str "id", Yaml.str "abcdef")],
       Yaml.hash [(Yaml.str "name", Yaml.str "majors"), (Yaml.str "type", Yaml.str "Input"),
          (Yaml.str "options", Yaml.hash []), (Yaml.str "path", Yaml.str ""),
          (Yaml.str "id", Yaml.str "bbcdef")],
       Yaml.hash [(Yaml.str "name", Yaml.str "job_titles"), (Yaml.str "type", Yaml.str "Input"),
          (Yaml.str "options", Yaml.hash []), (Yaml.str "path", Yaml.str ""),
          (Yaml.str "id", Yaml.str "cbcdef")],
       Yaml.hash [(Yaml.str "name", Yaml.str "job_types"), (Yaml.str "type", Yaml.str "Input"),
          (Yaml.str "options", Yaml.hash []), (Yaml.str "path", Yaml.str ""),
          (Yaml.str "id", Yaml.str "dbcdef")],
       Yaml.hash [(Yaml.str "name", Yaml.str "school_years"), (Yaml.str "type", Yaml.str "Input"),
          (Yaml.str "options", Yaml.hash []), (Yaml.str "path", Yaml.str ""),
          (Yaml.str "id", Yaml.str "ebcdef")],
       Yaml.hash [(Yaml.str "name", Yaml.str "international"), (Yaml.str "type", Yaml.str "Input"),
          (Yaml.str "options", Yaml.hash []), (Yaml.str "path", Yaml.str ""),
          (Yaml.str "id", Yaml.str "fbcdef")],
       Yaml.hash [(Yaml.str "name", Yaml.str "sessions"), (Yaml.str "type", Yaml.str "Input"),
          (Yaml.str "options", Yaml.hash []), (Yaml.str "path", Yaml.str ""),
          (Yaml.str "id", Yaml.str "gbcdef")],
       Yaml.hash [(Yaml.str "name", Yaml.str "website"), (Yaml.str "type", Yaml.str "Input"),
          (Yaml.str "options", Yaml.hash []), (Yaml.str "path", Yaml.str ""),
          (Yaml.str "id", Yaml.str "hbcdef")]] from rfl] at this
  · have := (merged_doc_lookups hf ho).2
    rwa [show orderIds =
      [Yaml.str "abcdef", Yaml.str "bbcdef", Yaml.str "cbcdef", Yaml.str "dbcdef",
       Yaml.str "ebcdef", Yaml.str "fbcdef", Yaml.str "gbcdef", Yaml.str "hbcdef"] from rfl] at this

/-- A template schema document with one pre-existing user field. -/
def preField : Yaml :=
  Yaml.hash [(Yaml.str "name", Yaml.str "notes"), (Yaml.str "type", Yaml.str "Input"),
             (Yaml.str "options", Yaml.hash []), (Yaml.str "path", Yaml.str ""),
             (Yaml.str "id", Yaml.str "zzzzzz")]

def oneFieldSchema : List (Yaml × Yaml) :=
  [(Yaml.str "fields", Yaml.arr [preField]),
   (Yaml.str "fieldsOrder", Yaml.arr [Yaml.str "zzzzzz"])]

/-- Witness for C3 (amended) on a schema with one pre-existing field. -/
theorem read_fileclass_yaml_appends_witness :
    ∃ doc2, read_fileclass_yaml (.hash oneFieldSchema) = some (["notes"], doc2) ∧
      docFields doc2 = some (.arr ([preField] ++
        [Yaml.hash [(Yaml.str "name", Yaml.str "location"), (Yaml.str "type", Yaml.str "Input"),
            (Yaml.str "options", Yaml.hash []), (Yaml.str "path", Yaml.str ""),
            (Yaml.str "id", Yaml.str "abcdef")],
         Yaml.hash [(Yaml.str "name", Yaml.str "majors"), (Yaml.str "type", Yaml.str "Input"),
            (Yaml.str "options", Yaml.hash []), (Yaml.str "path", Yaml.str ""),
            (Yaml.str "id", Yaml.str "bbcdef")],
         Yaml.hash [(Yaml.str "name", Yaml.str "job_titles"), (Yaml.str "type", Yaml.str "Input"),
            (Yaml.str "options", Yaml.hash []), (Yaml.str "path", Yaml.str ""),
            (Yaml.str "id", Yaml.str "cbcdef")],
         Yaml.hash [(Yaml.str "name", Yaml.str "job_types"), (Yaml.str "type", Yaml.str "Input"),
            (Yaml.str "options", Yaml.hash []), (Yaml.str "path", Yaml.str ""),
            (Yaml.str "id", Yaml.str "dbcdef")],
         Yaml.hash [(Yaml.str "name", Yaml.str "school_years"), (Yaml.str "type", Yaml.str "Input"),
            (Yaml.str "options", Yaml.hash []), (Yaml.str "path", Yaml.str ""),
            (Yaml.str "id", Yaml.str "ebcdef")],
         Yaml.hash [(Yaml.str "name", Yaml.str "international"), (Yaml.str "type", Yaml.str "Input"),
            (Yaml.str "options", Yaml.hash []), (Yaml.str "path", Yaml.str ""),
            (Yaml.str "id", Yaml.str "fbcdef")],
         Yaml.hash [(Yaml.str "name", Yaml.str "sessions"), (Yaml.str "type", Yaml.str "Input"),
            (Yaml.str "options", Yaml.hash []), (Yaml.str "path", Yaml.str ""),
            (Yaml.str "id", Yaml.str "gbcdef")],
         Yaml.hash [(Yaml.str "name", Yaml.str "website"), (Yaml.str "type", Yaml.str "Input"),
            (Yaml.str "options", Yaml.hash []), (Yaml.str "path", Yaml.str ""),
            (Yaml.str "id", Yaml.str "hbcdef")]])) ∧
      docFieldsOrder doc2 = some (.arr ([Yaml.str "zzzzzz"] ++
        [Yaml.str "abcdef", Yaml.str "bbcdef", Yaml.str "cbcdef", Yaml.str "dbcdef",
         Yaml.str "ebcdef", Yaml.str "fbcdef", Yaml.str "gbcdef", Yaml.str "hbcdef"])) :=
  read_fileclass_yaml_appends oneFieldSchema [preField] [Yaml.str "zzzzzz"] ["notes"] rfl rfl rfl

/-- A document satisfying the claim's stated precondition (a mapping
with `fields` and `fieldsOrder` sequences) on which the merge
nevertheless fails: the `fields` element `Yaml.str "x"` is not a
mapping with a string `name`. -/
def badFieldsSchema : List (Yaml × Yaml) :=
  [(Yaml.str "fields", Yaml.arr [Yaml.str "x"]),
   (Yaml.str "fieldsOrder", Yaml.arr [])]

/-- C3 counterexample: a document that parses as a mapping with
`fields` and `fieldsOrder` sequences, on which the merge returns no
updated document at all (so it does not append eight descriptors as
the claim states). -/
theorem read_fileclass_yaml_counterexample :
    docFields (Yaml.hash badFieldsSchema) = some (Yaml.arr [Yaml.str "x"]) ∧
    docFieldsOrder (Yaml.hash badFieldsSchema) = some (Yaml.arr []) ∧
    read_fileclass_yaml (Yaml.hash badFieldsSchema) = none :=
  ⟨rfl, rfl, rfl⟩

/-- An empty template schema: no pre-existing fields, empty order. -/
def emptySchema : List (Yaml × Yaml) :=
  [(Yaml.str "fields", Yaml.arr []), (Yaml.str "fieldsOrder", Yaml.arr [])]

/-- The ids of the `fields` descriptors of the merged document. -/
def mergedFieldIds (doc : Yaml) : Option (List (Option Yaml)) := do
  let p ← read_fileclass_yaml doc
  let fv ← docFields p.2
  let fl ← fv.asVec
  pure (fl.map descriptorId)

/-- C2 counterexample: merging an empty schema appends descriptors
whose ids are the six-character strings `abcdef` .. `hbcdef`, not
single-letter identifiers `a` .. `h` as the claim states. -/
theorem single_letter_id_counterexample :
    mergedFieldIds (Yaml.hash emptySchema)
      = some [some (Yaml.str "abcdef"), some (Yaml.str "bbcdef"), some (Yaml.str "cbcdef"),
              some (Yaml.str "dbcdef"), some (Yaml.str "ebcdef"), some (Yaml.str "fbcdef"),
              some (Yaml.str "gbcdef"), some (Yaml.str "hbcdef")] ∧
    ("abcdef" : String).length = 6 ∧ ¬ ("abcdef" : String).length = 1 ∧
    ("abcdef" : String) ≠ "a" :=
  ⟨rfl, rfl, by decide, by decide⟩

/-- C2 (amended): every field descriptor appended by the merge uses a
six-character identifier; across the eight appended descriptors the
identifiers' first characters are the ascending letters `a` through
`h`, one per descriptor (the ids are `abcdef`, `bbcdef`, ...,
`hbcdef`), the remaining five characters staying `bcdef`. -/
theorem appended_ids_six_chars (h : List (Yaml × Yaml)) (fl ol : List Yaml)
    (names : List String)
    (hf : hashGet h "fields" = some (.arr fl))
    (ho : hashGet h "fieldsOrder" = some (.arr ol))
    (hn : getUserFieldNames fl = some names) :
    ∃ doc2, read_fileclass_yaml (.hash h) = some (names, doc2) ∧
      docFields doc2 = some (.arr (fl ++ newDescriptors)) ∧
      newDescriptors.map descriptorId
        = [some (Yaml.str "abcdef"), some (Yaml.str "bbcdef"), some (Yaml.str "cbcdef"),
           some (Yaml.str "dbcdef"), some (Yaml.str "ebcdef"), some (Yaml.str "fbcdef"),
           some (Yaml.str "gbcdef"), some (Yaml.str "hbcdef")] ∧
      (["abcdef", "bbcdef", "cbcdef", "dbcdef", "ebcdef", "fbcdef", "gbcdef", "hbcdef"]
          : List String).map (fun s => s.length) = [6, 6, 6, 6, 6, 6, 6, 6] ∧
      (["abcdef", "bbcdef", "cbcdef", "dbcdef", "ebcdef", "fbcdef", "gbcdef", "hbcdef"]
          : List String).map (fun s => s.front) = ['a', 'b', 'c', 'd', 'e', 'f', 'g', 'h'] :=
  ⟨_, read_fileclass_yaml_eq hf ho hn, (merged_doc_lookups hf ho).1, rfl, rfl, rfl⟩

/-- Witness for C2 (amended) on the empty schema. -/
theorem appended_ids_six_chars_witness :
    ∃ doc2, read_fileclass_yaml (.hash emptySchema) = some ([], doc2) ∧
      docFields doc2 = some (.arr ([] ++ newDescriptors)) ∧
      newDescriptors.map descriptorId
        = [some (Yaml.str "abcdef"), some (Yaml.str "bbcdef"), some (Yaml.str "cbcdef"),
           some (Yaml.str "dbcdef"), some (Yaml.str "ebcdef"), some (Yaml.str "fbcdef"),
           some (Yaml.str "gbcdef"), some (Yaml.str "hbcdef")] ∧
      (["abcdef", "bbcdef", "cbcdef", "dbcdef", "ebcdef", "fbcdef", "gbcdef", "hbcdef"]
          : List String).map (fun s => s.length) = [6, 6, 6, 6, 6, 6, 6, 6] ∧
      (["abcdef", "bbcdef", "cbcdef", "dbcdef", "ebcdef", "fbcdef", "gbcdef", "hbcdef"]
          : List String).map (fun s => s.front) = ['a', 'b', 'c', 'd', 'e', 'f', 'g', 'h'] :=
  appended_ids_six_chars emptySchema [] [] [] rfl rfl rfl

/-- C8: for every template schema document whose `fields` sequence is
empty before merging, the merge returns an empty `user_field_names`
list and an updated document whose `fields` sequence has exactly 8
entries. -/
theorem merge_empty_fields (h : List (Yaml × Yaml)) (ol : List Yaml)
    (hf : hashGet h "fields" = some (.arr []))
    (ho : hashGet h "fieldsOrder" = some (.arr ol)) :
    ∃ doc2, read_fileclass_yaml (.hash h) = some ([], doc2) ∧
      ∃ fl2, docFields doc2 = some (.arr fl2) ∧ fl2.length = 8 :=
  ⟨_, read_fileclass_yaml_eq hf ho rfl, [] ++ newDescriptors,
    (merged_doc_lookups hf ho).1, rfl⟩

/-- Witness for C8 on the empty schema. -/
theorem merge_empty_fields_witness :
    ∃ doc2, read_fileclass_yaml (.hash emptySchema) = some ([], doc2) ∧
      ∃ fl2, docFields doc2 = some (.arr fl2) ∧ fl2.length = 8 :=
  merge_empty_fields emptySchema [] rfl rfl

/-- The forward scan of `clean_yaml_md_file` (lines 295-297): drop
leading bytes while more than one byte remains and the first byte is
neither `\r` (13) nor `\n` (10). -/
def scanFwd : List Nat → List Nat
  | [] => []
  | [b] => [b]
  | b :: c :: rest => if b = 13 ∨ b = 10 then b :: c :: rest else scanFwd (c :: rest)

/-- The backward scan (lines 304-307), expressed on the reversed list:
drop bytes while more than one remains and the first (i.e. originally
last) is `-` (45). -/
def stripTrailRev : List Nat → List Nat
  | [] => []
  | [b] => [b]
  | b :: c :: rest => if b = 45 then stripTrailRev (c :: rest) else b :: c :: rest

/-- The trailing strip of `clean_yaml_md_file`. -/
def stripTrail (l : List Nat) : List Nat := (stripTrailRev l.reverse).reverse

/-- `clean_yaml_md_file` (lines 294-310) on the byte list.  `none`
models the places where the Rust code panics with an out-of-bounds
slice index: `&bytes[1..]` on an empty slice (empty input) and
`bytes[0]` on an empty slice (nothing follows the first line). -/
def clean_yaml_md_file (bytes : List Nat) : Option (List Nat) :=
  match scanFwd bytes with
  | [] => none
  | [_] => none
  | _ :: y :: rest => some (stripTrail (if y = 10 then rest else y :: rest))

/-- Modelled from the claim wording of C7: discard everything up to
and including the first line-break byte (`\r` or `\n`); when the input
has no line break everything is discarded. -/
def afterFirstBreak : List Nat → List Nat
  | [] => []
  | b :: rest => if b = 13 ∨ b = 10 then rest else afterFirstBreak rest

/-- Modelled from the claim wording of C7: skip one immediately
following `\n` byte if present. -/
def skipLeadingNl : List Nat → List Nat
  | [] => []
  | b :: rest => if b = 10 then rest else b :: rest

/-- Drop every leading `-` (45) byte. -/
def dropLeadingDashes : List Nat → List Nat
  | [] => []
  | b :: rest => if b = 45 then dropLeadingDashes rest else b :: rest

/-- Modelled from the claim wording of C7: strip every trailing `-`
byte from the end. -/
def dropTrailingDashes (l : List Nat) : List Nat :=
  (dropLeadingDashes l.reverse).reverse

/-- The front-matter stripping step exactly as claim C7 describes it. -/
def cleanSpecLiteral (bytes : List Nat) : List Nat :=
  dropTrailingDashes (skipLeadingNl (afterFirstBreak bytes))

theorem stripTrailRev_of_ne {r : List Nat} (h : dropLeadingDashes r ≠ []) :
    stripTrailRev r = dropLeadingDashes r := by
  induction r with
  | nil => simp [dropLeadingDashes] at h
  | cons b rest ih =>
      cases rest with
      | nil =>
          by_cases hb : b = 45
          · subst hb; simp [dropLeadingDashes] at h
          · simp [stripTrailRev, dropLeadingDashes, hb]
      | cons c rest2 =>
          by_cases hb : b = 45
          · subst hb
            simp only [dropLeadingDashes, if_true, eq_self_iff_true] at h
            simp only [stripTrailRev, if_true, eq_self_iff_true]
            simp only [dropLeadingDashes]
            exact ih (by simpa using h)
          · simp [stripTrailRev, dropLeadingDashes, hb]

theorem take_one_append {α : Type} (l1 l2 : List α) (h : l1 ≠ []) :
    (l1 ++ l2).take 1 = l1.take 1 := by
  cases l1 with
  | nil => exact absurd rfl h
  | cons a t => rfl

theorem stripTrailRev_of_eq {r : List Nat} (h : dropLeadingDashes r = []) :
    stripTrailRev r = r.reverse.take 1 := by
  induction r with
  | nil => rfl
  | cons b rest ih =>
      cases rest with
      | nil => simp [stripTrailRev]
      | cons c rest2 =>
          by_cases hb : b = 45
          · subst hb
            simp only [dropLeadingDashes, if_true, eq_self_iff_true] at h
            have hih := ih (by simpa using h)
            simp only [stripTrailRev, if_true, eq_self_iff_true]
            rw [hih, show (45 :: c :: rest2).reverse = (c :: rest2).reverse ++ [45]
              from List.reverse_cons _ _, take_one_append _ _ (by simp)]
          · simp [dropLeadingDashes, hb] at h

theorem stripTrail_eq_spec (l : List Nat) :
    stripTrail l = if dropTrailingDashes l = [] then l.take 1 else dropTrailingDashes l := by
  unfold stripTrail dropTrailingDashes
  by_cases h : dropLeadingDashes l.reverse = []
  · rw [stripTrailRev_of_eq h, List.reverse_reverse, if_pos (by simp [h])]
    cases l <;> simp
  · rw [stripTrailRev_of_ne h, if_neg (by simp [h])]

theorem clean_yaml_md_file_eq (bytes : List Nat) :
    clean_yaml_md_file bytes
      = if afterFirstBreak bytes = [] then none
        else some (stripTrail (skipLeadingNl (afterFirstBreak bytes))) := by
  induction bytes with
  | nil => rfl
  | cons b tail ih =>
      cases tail with
      | nil =>
          by_cases hb : b = 13 ∨ b = 10 <;>
            simp [clean_yaml_md_file, scanFwd, afterFirstBreak, hb]
      | cons c rest =>
          by_cases hb : b = 13 ∨ b = 10
          · by_cases hc : c = 10 <;>
              simp [clean_yaml_md_file, scanFwd, afterFirstBreak, skipLeadingNl, hb, hc]
          · have h1 : clean_yaml_md_file (b :: c :: rest) = clean_yaml_md_file (c :: rest) := by
              simp [clean_yaml_md_file, scanFwd, hb]
            have h2 : afterFirstBreak (b :: c :: rest) = afterFirstBreak (c :: rest) := by
              simp [afterFirstBreak, hb]
            rw [h1, h2, ih]

/-- C7 counterexample: on the template bytes `x\n---` the code keeps
one trailing dash (the trailing loop stops when a single byte
remains), returning `[45]`, while the claim's description — strip
EVERY trailing `-` byte — yields the empty slice. -/
theorem clean_yaml_counterexample :
    clean_yaml_md_file [120, 10, 45, 45, 45] = some [45] ∧
    cleanSpecLiteral [120, 10, 45, 45, 45] = [] ∧
    some [45] ≠ some ([] : List Nat) :=
  ⟨rfl, rfl, by decide⟩

/-- C7 (amended): whenever at least one byte follows the first
line-break byte (otherwise the function panics instead of returning —
see C10), the step discards everything up to and including the first
line-break byte, skips one immediately following `\n` byte if present,
and strips trailing `-` bytes only while more than one byte remains: a
remainder consisting solely of `-` bytes keeps its first byte rather
than becoming empty. -/
theorem clean_yaml_md_file_spec (bytes : List Nat)
    (h : afterFirstBreak bytes ≠ []) :
    clean_yaml_md_file bytes
      = some (if dropTrailingDashes (skipLeadingNl (afterFirstBreak bytes)) = []
              then (skipLeadingNl (afterFirstBreak bytes)).take 1
              else dropTrailingDashes (skipLeadingNl (afterFirstBreak bytes))) := by
  rw [clean_yaml_md_file_eq, if_neg h, stripTrail_eq_spec]

/-- Witness for C7 (amended) at the counterexample input `x\n---`. -/
theorem clean_yaml_md_file_spec_witness :
    clean_yaml_md_file [120, 10, 45, 45, 45]
      = some (if dropTrailingDashes (skipLeadingNl (afterFirstBreak [120, 10, 45, 45, 45])) = []
              then (skipLeadingNl (afterFirstBreak [120, 10, 45, 45, 45])).take 1
              else dropTrailingDashes (skipLeadingNl (afterFirstBreak [120, 10, 45, 45, 45]))) :=
  clean_yaml_md_file_spec [120, 10, 45, 45, 45] (by decide)

/-- C10: the front-matter stripping function is not total: it panics
(modelled as `none`, an out-of-bounds slice access) on the empty
input, on every input shorter than two bytes, on the four bytes
`---\n`, and in general on every input in which no byte follows the
first line break — so schema reading crashes on such templates instead
of returning the documented schema-read error. -/
theorem clean_yaml_md_file_panics :
    clean_yaml_md_file [] = none ∧
    (∀ b, clean_yaml_md_file [b] = none) ∧
    clean_yaml_md_file [45, 45, 45, 10] = none ∧
    (∀ bytes, afterFirstBreak bytes = [] → clean_yaml_md_file bytes = none) := by
  refine ⟨rfl, fun b => rfl, rfl, fun bytes h => ?_⟩
  rw [clean_yaml_md_file_eq, if_pos h]

/-- Witness for C10's general clause at the one-byte input `\n`. -/
theorem clean_yaml_md_file_panics_witness :
    clean_yaml_md_file [10] = none :=
  clean_yaml_md_file_panics.2.2.2 [10] rfl
